import Mathlib

/-!
Verification of the serf event-loop core (src/rust/ares/src/serf.rs).

The development shallowly embeds the serf layer: nouns, axis lookup, the
snapshot manager, the Context, the formula builders, the soft-run / goof /
crud-retry protocol, and the request dispatcher.  External collaborators
(the Nock interpreter, the mook stack formatter, the zing jet and the mug
hash) are out of scope of the file under verification and are modelled as
pure oracles carried in an `Externals` record; memory lifetimes (scratch
frames versus the persistent arena) are modelled by tagging values with
their allocation site.
-/

namespace Serf

/-- A noun is an atom (arbitrary-precision unsigned integer) or a cell
(ordered pair of nouns), mirroring crate::noun::Noun. -/
inductive Noun : Type
  | atom (n : Nat) : Noun
  | cell (h t : Noun) : Noun
  deriving DecidableEq, Repr

/-- Direct-atom constructor, mirroring noun::D. -/
def D (n : Nat) : Noun := Noun.atom n

/-- Tuple constructor, mirroring noun::T: a right-nested chain of cells. -/
def T : List Noun → Noun
  | [] => D 0
  | [x] => x
  | x :: y :: rest => Noun.cell x (T (y :: rest))

/-- Cell view (Noun::as_cell), returning head and tail. -/
def Noun.asCell? : Noun → Option (Noun × Noun)
  | Noun.cell h t => some (h, t)
  | _ => none

/-- Atom view (Noun::as_atom). -/
def Noun.asAtom? : Noun → Option Nat
  | Noun.atom n => some n
  | _ => none

/-- Direct-atom view (Noun::as_direct): direct atoms fit in 63 bits. -/
def Noun.asDirect? : Noun → Option Nat
  | Noun.atom n => if n < 2 ^ 63 then some n else none
  | _ => none

/-- Axis lookup, fuelled so that it is structurally recursive (the axis
halves at every step, so any fuel at least the axis suffices). -/
def slotFuel : Nat → Noun → Nat → Option Noun
  | _, _, 0 => none
  | _, n, 1 => some n
  | 0, _, _ => none
  | fuel + 1, n, a + 2 =>
    match slotFuel fuel n ((a + 2) / 2) with
    | some (Noun.cell h t) => some (if (a + 2) % 2 = 0 then h else t)
    | _ => none

/-- Axis lookup (the Slots trait used by serf::slot and Noun::slot):
axis 1 is the root, axis 2n the head of axis n, axis 2n+1 its tail;
axis 0 and descending into an atom fail. -/
def slot (n : Noun) (a : Nat) : Option Noun := slotFuel a n a

/-- The %tas tag constants of serf.rs: ASCII bytes packed little-endian
(ares_macros::tas). -/
def tasLive : Nat := 0x6576696c

def tasPeek : Nat := 0x6b656570

def tasPlay : Nat := 0x79616c70

def tasWork : Nat := 0x6b726f77

def tasCram : Nat := 0x6d617263

def tasSave : Nat := 0x65766173

def tasMeld : Nat := 0x646c656d

def tasPack : Nat := 0x6b636170

def tasCrud : Nat := 0x64757263

def tasArvo : Nat := 0x6f767261

def tasExit : Nat := 0x74697865

/-- Interpreter error taxonomy, mirroring interpreter::Error. -/
inductive Error : Type
  | deterministic (trace : Noun)
  | nonDeterministic (trace : Noun)
  | scryBlocked (path : Noun)
  | scryCrashed (path : Noun)
  deriving DecidableEq, Repr

/-- External collaborators of serf.rs, modelled as pure oracles: the Nock
interpreter (interpreter::interpret as a function of subject and formula),
the mook stack formatter (returning the head and tail of its result cell,
or none when it crashes), the zing list-flattening jet, and the mug
structural hash (mug_u32). -/
structure Externals where
  interpret : Noun → Noun → Except Error Noun
  mook : Noun → Option (Noun × Noun)
  zing : Noun → Option Noun
  mug : Noun → Nat

/-- Allocation site of a value: a scratch-stack frame, identified by the
number of flip_top_frame calls performed so far, or the persistent memory
arena (PMA). -/
inductive Loc : Type
  | frame (gen : Nat)
  | pma
  deriving DecidableEq, Repr

/-- A value tagged with its allocation site.  The contents of the jet
state (cold, warm, hot) and of the noun cache are opaque at the serf
layer, so they are carried as numeric tokens; what serf.rs manages is
their lifetime across frame flips, which the location records. -/
structure Tagged where
  val : Nat
  loc : Loc
  deriving DecidableEq, Repr

/-- The packed snapshot record (struct SnapshotMem): epoch, committed
event number, the kernel noun, and the cold jet table. -/
structure SnapshotMem where
  epoch : Nat
  event_num : Nat
  arvo : Noun
  cold : Nat
  deriving DecidableEq, Repr

/-- In-memory image of the persistent arena: the two metadata slots
(BTMetaField::SnapshotVersion and BTMetaField::Snapshot) and the stored
snapshot records; a handle is an index into the store. -/
structure PMAState where
  snapshotVersion : Nat
  snapshotHandle : Nat
  store : List SnapshotMem
  deriving DecidableEq, Repr

/-- The persistent arena together with its durable (on-disk) shadow:
Context::save mutates only mem, Context::sync copies mem to disk. -/
structure PMA where
  mem : PMAState
  disk : PMAState
  deriving DecidableEq, Repr

/-- The serf Context (struct Context together with the fields of the inner
interpreter::Context that serf.rs itself manipulates): the snapshot
fields, the mug of arvo, the scratch-stack generation, the jet state, the
noun cache, the scry stack, the process-wide interrupt flag TERMINATOR,
and the tracing flag. -/
structure Context where
  epoch : Nat
  event_num : Nat
  pma : PMA
  arvo : Noun
  mug : Nat
  arvoLoc : Loc
  stackGen : Nat
  cold : Tagged
  warm : Tagged
  hot : Tagged
  cache : Tagged
  scry_stack : Noun
  terminator : Bool
  trace_info : Bool
  deriving DecidableEq, Repr

/-- PMA_CURRENT_SNAPSHOT_VERSION. -/
def PMA_CURRENT_SNAPSHOT_VERSION : Nat := 1

/-- Context::save: populate a snapshot record from the Context, deep-copy
it (with arvo and cold) into the persistent arena, and rewrite the two
metadata slots.  Durability is not forced: the disk shadow is untouched.
After the copy the Context's arvo and cold refer to the arena copies. -/
def Context.save (ctx : Context) : Context :=
  let snap : SnapshotMem :=
    { epoch := ctx.epoch
      event_num := ctx.event_num
      arvo := ctx.arvo
      cold := ctx.cold.val }
  let handle := ctx.pma.mem.store.length
  { ctx with
    pma :=
      { ctx.pma with
        mem :=
          { snapshotVersion := PMA_CURRENT_SNAPSHOT_VERSION
            snapshotHandle := handle
            store := ctx.pma.mem.store ++ [snap] } }
    arvoLoc := Loc.pma
    cold := ⟨ctx.cold.val, Loc.pma⟩ }

/-- Context::sync: force the persistent arena to durable storage. -/
def Context.sync (ctx : Context) : Context :=
  { ctx with pma := { ctx.pma with disk := ctx.pma.mem } }

/-- Context::new: fresh NockStack, fresh cache, state taken from the
snapshot when present and otherwise (0, 0, D(0), Cold::new); hot and warm
are initialised on the stack and mug is computed from arvo.  The fresh
cold table is the token 0 allocated on the fresh stack frame. -/
def Context.new (E : Externals) (trace_info : Bool) (pma : PMA)
    (snapshot : Option SnapshotMem) : Context :=
  match snapshot with
  | some s =>
    { epoch := s.epoch
      event_num := s.event_num
      pma := pma
      arvo := s.arvo
      mug := E.mug s.arvo
      arvoLoc := Loc.pma
      stackGen := 0
      cold := ⟨s.cold, Loc.pma⟩
      warm := ⟨0, Loc.frame 0⟩
      hot := ⟨0, Loc.frame 0⟩
      cache := ⟨0, Loc.frame 0⟩
      scry_stack := D 0
      terminator := false
      trace_info := trace_info }
  | none =>
    { epoch := 0
      event_num := 0
      pma := pma
      arvo := D 0
      mug := E.mug (D 0)
      arvoLoc := Loc.frame 0
      stackGen := 0
      cold := ⟨0, Loc.frame 0⟩
      warm := ⟨0, Loc.frame 0⟩
      hot := ⟨0, Loc.frame 0⟩
      cache := ⟨0, Loc.frame 0⟩
      scry_stack := D 0
      terminator := false
      trace_info := trace_info }

/-- Context::load: open the arena, read the SnapshotVersion metadata slot;
0 means no snapshot (fresh Context), the current version 1 means the
Snapshot slot holds a handle to the record, and any other value is fatal
(modelled as none).  Reading through a dangling handle is undefined
behaviour in the source and is likewise modelled as none. -/
def Context.load (E : Externals) (trace_info : Bool) (st : PMAState) :
    Option Context :=
  let pma : PMA := ⟨st, st⟩
  match st.snapshotVersion with
  | 0 => some (Context.new E trace_info pma none)
  | 1 => (st.store[st.snapshotHandle]?).map fun s =>
      Context.new E trace_info pma (some s)
  | _ => none

/-- Context::event_update: set arvo and event_num, invoke save, preserve
hot and warm across the top-frame flip, reset the scratch stack, allocate
a fresh cache, clear the scry stack, and recompute mug from arvo. -/
def Context.event_update (E : Externals) (ctx : Context)
    (new_event_num : Nat) (new_arvo : Noun) : Context :=
  let c1 : Context :=
    { ctx with
      arvo := new_arvo
      arvoLoc := Loc.frame ctx.stackGen
      event_num := new_event_num }
  let c2 := c1.save
  let g' := c2.stackGen + 1
  { c2 with
    hot := ⟨c2.hot.val, Loc.frame g'⟩
    warm := ⟨c2.warm.val, Loc.frame g'⟩
    stackGen := g'
    cache := ⟨0, Loc.frame g'⟩
    scry_stack := D 0
    mug := E.mug c2.arvo }

/-- Replies written through the Newt message port, each carrying exactly
the data the corresponding Context method sends. -/
inductive Reply : Type
  | ripe (eve mug : Nat)
  | live
  | peek_done (dat : Noun)
  | play_done (mug : Nat)
  | play_bail (eve mug : Nat) (dud : Noun)
  | work_done (eve mug : Nat) (fec : Noun)
  | work_swap (eve mug : Nat) (job fec : Noun)
  | work_bail (lud : Noun)
  deriving DecidableEq, Repr

def LOAD_AXIS : Nat := 4

def PEEK_AXIS : Nat := 22

def POKE_AXIS : Nat := 23

def WISH_AXIS : Nat := 10

/-- The slam formula [8 [9 axis 0 2] 9 2 10 [6 0 7] 0 2] built by
serf::slam from pul, sam and fol. -/
def slamFol (axis : Nat) : Noun :=
  let pul := T [D 9, D axis, D 0, D 2]
  let sam := T [D 6, D 0, D 7]
  T [D 8, pul, D 9, D 2, D 10, sam, D 0, D 2]

/-- serf::slam: evaluate the slam formula for the given axis against the
subject [arvo ovo]. -/
def slam (E : Externals) (ctx : Context) (axis : Nat) (ovo : Noun) :
    Except Error Noun :=
  E.interpret (T [ctx.arvo, ovo]) (slamFol axis)

/-- serf::goof: zing the captured traces, build the tone [2 trace], run
mook, and return [%exit tang] where tang is the tail of the mook result;
a zing or mook failure is fatal (none). -/
def goof (E : Externals) (traces : Noun) : Option Noun :=
  (E.zing traces).bind fun trace =>
    (E.mook (Noun.cell (D 2) trace)).map fun m => T [D tasExit, m.2]

/-- serf::soft: run slam at POKE_AXIS; return the result on success, turn
a Deterministic or NonDeterministic failure into a goof error value, and
abort (none) on ScryBlocked or ScryCrashed. -/
def soft (E : Externals) (ctx : Context) (ovo : Noun) :
    Option (Except Noun Noun) :=
  match slam E ctx POKE_AXIS ovo with
  | Except.ok res => some (Except.ok res)
  | Except.error (Error.deterministic t) | Except.error (Error.nonDeterministic t) =>
    (goof E t).map Except.error
  | Except.error (Error.scryBlocked _) | Except.error (Error.scryCrashed _) => none

/-- serf::peek: slam at PEEK_AXIS and reply peek_done; any interpreter
error is fatal (peek error handling unimplemented). -/
def peek (E : Externals) (ctx : Context) (ovo : Noun) :
    Option (Context × List Reply) :=
  match slam E ctx PEEK_AXIS ovo with
  | Except.ok res => some (ctx, [Reply.peek_done res])
  | Except.error _ => none

/-- The lifecycle boot formula [2 [0 3] 0 2] built by serf::play_life. -/
def lifeFormula : Noun := T [D 2, T [D 0, D 3], D 0, D 2]

/-- Modelled from the spec: the external list-length jet `lent`
(crate::jets::list::util, whose source is not part of this file): the
length of a null-terminated noun list, failing on an improper list; the
spec states that the committed event number after boot equals the length
of the event list. -/
def lent : Noun → Option Nat
  | Noun.atom 0 => some 0
  | Noun.atom _ => none
  | Noun.cell _ t => (lent t).map (· + 1)

/-- serf::play_life: run the lifecycle formula on the whole event list;
on success commit (length of the list, axis 7 of the result) and reply
play_done; on a deterministic or non-deterministic failure reply
play_bail with the goof; on a scry failure abort. -/
def play_life (E : Externals) (ctx : Context) (eve : Noun) :
    Option (Context × List Reply) :=
  match E.interpret eve lifeFormula with
  | Except.ok gat =>
    match lent eve, slot gat 7 with
    | some eved, some arvo =>
      let c' := Context.event_update E ctx eved arvo
      some (c', [Reply.play_done c'.mug])
    | _, _ => none
  | Except.error (Error.deterministic t) | Except.error (Error.nonDeterministic t) =>
    (goof E t).map fun g => (ctx, [Reply.play_bail ctx.event_num ctx.mug g])
  | Except.error _ => none

/-- serf::play_list: replay the events one by one, committing event_num+1
after each success; stop with play_bail on the first goof, reply
play_done when the list is exhausted. -/
def play_list (E : Externals) : Context → Noun → Option (Context × List Reply)
  | ctx, Noun.atom _ => some (ctx, [Reply.play_done ctx.mug])
  | ctx, Noun.cell ovo rest =>
    match soft E ctx ovo with
    | some (Except.ok res) =>
      match res.asCell? with
      | some (_, arvo) =>
        play_list E (Context.event_update E ctx (ctx.event_num + 1) arvo) rest
      | none => none
    | some (Except.error g) =>
      some (ctx, [Reply.play_bail ctx.event_num ctx.mug g])
    | none => none

/-- The crud event built inside serf::work_swap:
[+(now) [0 %arvo 0] %crud goof original-body], where now is the head of
the failed job (which must be an atom) and the body is its tail. -/
def crud_ovo (job goofv : Noun) : Option Noun :=
  match job with
  | Noun.cell h tl =>
    match h.asAtom? with
    | some t =>
      let now := D (t + 1)
      let wire := T [D 0, D tasArvo, D 0]
      some (T [now, wire, D tasCrud, goofv, tl])
    | none => none
  | _ => none

/-- serf::work_bail: wrap the goofs as lud = [lest 0] with lest the tuple
of the goofs, and reply work_bail. -/
def work_bail (ctx : Context) (goofs : List Noun) : Context × List Reply :=
  let lest := T goofs
  let lud := T [lest, D 0]
  (ctx, [Reply.work_bail lud])

/-- The context mutation at the top of serf::work_swap: clear the
interrupt flag and allocate a fresh noun cache. -/
def work_swap_prep (ctx : Context) : Context :=
  { ctx with terminator := false, cache := ⟨0, Loc.frame ctx.stackGen⟩ }

/-- serf::work_swap: clear the interrupt flag, reset the noun cache,
build the crud event and soft-run it; on success commit event_num+1 and
reply work_swap with the substitute job, on a second goof reply work_bail
with both goofs. -/
def work_swap (E : Externals) (ctx : Context) (job goofv : Noun) :
    Option (Context × List Reply) :=
  match crud_ovo job goofv with
  | none => none
  | some ovo =>
    match soft E (work_swap_prep ctx) ovo with
    | some (Except.ok res) =>
      match res.asCell? with
      | some (fec, newArvo) =>
        let c' := Context.event_update E (work_swap_prep ctx)
          ((work_swap_prep ctx).event_num + 1) newArvo
        some (c', [Reply.work_swap c'.event_num c'.mug ovo fec])
      | none => none
    | some (Except.error goof_crud) =>
      some (work_bail (work_swap_prep ctx) [goof_crud, goofv])
    | none => none

/-- The trace-name extraction at the top of serf::work: when tracing is
enabled the job must have a wire at axis 6 and an atom event tag at axis
14, otherwise the process panics. -/
def work_guard (job : Noun) : Option Unit :=
  (slot job 6).bind fun _ =>
    (slot job 14).bind fun ventN =>
      ventN.asAtom?.map fun _ => ()

/-- serf::work: soft-run the job; on success [fec new-arvo] commit
event_num+1 and reply work_done; on a goof enter work_swap. -/
def work (E : Externals) (ctx : Context) (job : Noun) :
    Option (Context × List Reply) :=
  (if ctx.trace_info then work_guard job else some ()).bind fun _ =>
    match soft E ctx job with
    | some (Except.ok res) =>
      match res.asCell? with
      | some (fec, newArvo) =>
        let c' := Context.event_update E ctx (ctx.event_num + 1) newArvo
        some (c', [Reply.work_done c'.event_num c'.mug fec])
      | none => none
    | some (Except.error g) => work_swap E ctx job g
    | none => none

/-- The dispatch match of the serf main loop: the tag is the direct atom
at axis 2 of the request.  live reads the direct sub-tag at axis 6,
invokes sync exactly for %save (the other sub-tags only print), and
always replies live; peek, play and work read axis 7; play boots the
lifecycle exactly when epoch and event_num are both zero; an unknown tag,
a missing axis or an indirect tag is fatal. -/
def dispatch (E : Externals) (ctx : Context) (writ : Noun) :
    Option (Context × List Reply) :=
  (slot writ 2).bind fun tagN =>
    tagN.asDirect?.bind fun tag =>
      if tag = tasLive then
        (slot writ 6).bind fun innerN =>
          innerN.asDirect?.map fun inner =>
            ((if inner = tasSave then ctx.sync else ctx), [Reply.live])
      else if tag = tasPeek then
        (slot writ 7).bind fun ovo => peek E ctx ovo
      else if tag = tasPlay then
        (slot writ 7).bind fun lit =>
          if ctx.epoch = 0 ∧ ctx.event_num = 0 then play_life E ctx lit
          else play_list E ctx lit
      else if tag = tasWork then
        (slot writ 7).bind fun job => work E ctx job
      else none

/-- The state of the loop just before dispatch: a signal may arrive while
blocked in next() (sigWait), and the loop then resets the noun cache and
the scry stack.  No clear of TERMINATOR happens here. -/
def serf_pre_dispatch (ctx : Context) (sigWait : Bool) : Context :=
  { ctx with
    terminator := ctx.terminator || sigWait
    cache := ⟨0, Loc.frame ctx.stackGen⟩
    scry_stack := D 0 }

/-- One pass of the serf main loop around a single request: reset cache
and scry stack (a signal may have arrived while waiting), dispatch, clear
TERMINATOR (a signal may have arrived during the event, sigLate), and
preserve arvo, cold, warm and hot across the top-frame flip. -/
def serf_step (E : Externals) (ctx : Context) (writ : Noun)
    (sigWait sigLate : Bool) : Option (Context × List Reply) :=
  (dispatch E (serf_pre_dispatch ctx sigWait) writ).map fun p =>
    let c2 : Context := { p.1 with terminator := p.1.terminator || sigLate }
    let c3 : Context := { c2 with terminator := false }
    let g' := c3.stackGen + 1
    ({ c3 with
       arvoLoc := if c3.arvoLoc = Loc.pma then Loc.pma else Loc.frame g'
       cold := ⟨c3.cold.val, if c3.cold.loc = Loc.pma then Loc.pma else Loc.frame g'⟩
       warm := ⟨c3.warm.val, Loc.frame g'⟩
       hot := ⟨c3.hot.val, Loc.frame g'⟩
       stackGen := g' }, p.2)

/-!  Shared concrete fixtures used by witnesses and counterexamples. -/

/-- A concrete Externals whose interpreter always fails deterministically
with trace 0, with zing the identity and mook returning the cell (0, 0). -/
def E0 : Externals :=
  { interpret := fun _ _ => Except.error (Error.deterministic (D 0))
    mook := fun _ => some (D 0, D 0)
    zing := fun t => some t
    mug := fun _ => 0 }

/-- A concrete Externals whose interpreter always reports a blocked scry. -/
def EScry : Externals :=
  { interpret := fun _ _ => Except.error (Error.scryBlocked (D 0))
    mook := fun _ => none
    zing := fun _ => none
    mug := fun _ => 0 }

/-- A concrete Externals whose interpreter always succeeds with the noun
[0 0 42], so that axis 7 of the result is 42. -/
def EBoot : Externals :=
  { interpret := fun _ _ => Except.ok (Noun.cell (D 0) (Noun.cell (D 0) (D 42)))
    mook := fun _ => none
    zing := fun _ => none
    mug := fun _ => 7 }

/-- A concrete initial Context with empty arena and all state fresh. -/
def ctx0 : Context :=
  { epoch := 0
    event_num := 0
    pma := ⟨⟨0, 0, []⟩, ⟨0, 0, []⟩⟩
    arvo := D 0
    mug := 0
    arvoLoc := Loc.frame 0
    stackGen := 0
    cold := ⟨0, Loc.frame 0⟩
    warm := ⟨0, Loc.frame 0⟩
    hot := ⟨0, Loc.frame 0⟩
    cache := ⟨0, Loc.frame 0⟩
    scry_stack := D 0
    terminator := false
    trace_info := false }

/-- The goof produced by E0: zing gives trace 0, mook gives tang 0, so the
goof is [%exit 0]. -/
def g0 : Noun := Noun.cell (D tasExit) (D 0)

/-!  Claim theorems. -/

/-- Claim C2: when the first soft run of a work job fails with goof g, the
crud event built by work_swap is [now+1 [0 %arvo 0] %crud g body], where
now+1 is the successor of the job's head atom and body is the job's
tail. -/
theorem crud_event_shape (t : Nat) (body g : Noun) :
    crud_ovo (Noun.cell (Noun.atom t) body) g =
      some (Noun.cell (Noun.atom (t + 1))
        (Noun.cell (Noun.cell (D 0) (Noun.cell (D tasArvo) (D 0)))
          (Noun.cell (D tasCrud) (Noun.cell g body)))) := rfl

/-- Claim C4: slam at a given axis evaluates exactly the Nock formula
[8 [9 axis 0 2] 9 2 10 [6 0 7] 0 2] against the subject [arvo ovo], and
the peek and poke axes are 22 and 23. -/
theorem slam_formula_and_axes (E : Externals) (ctx : Context) (axis : Nat)
    (ovo : Noun) :
    slam E ctx axis ovo =
      E.interpret (Noun.cell ctx.arvo ovo)
        (Noun.cell (D 8)
          (Noun.cell (Noun.cell (D 9) (Noun.cell (D axis) (Noun.cell (D 0) (D 2))))
            (Noun.cell (D 9)
              (Noun.cell (D 2)
                (Noun.cell (D 10)
                  (Noun.cell (Noun.cell (D 6) (Noun.cell (D 0) (D 7)))
                    (Noun.cell (D 0) (D 2)))))))) ∧
    PEEK_AXIS = 22 ∧ POKE_AXIS = 23 :=
  ⟨rfl, rfl, rfl⟩

/-- Claim C6: event_update sets event_num and arvo, invokes save (the
arena store gains the record and the two metadata slots are rewritten),
preserves jet state across a full scratch-arena reset (hot and warm land
in the new top frame, cold survives in the arena), clears the noun cache
and the scry stack, and afterwards mug is the structural hash of the
current arvo. -/
theorem event_update_spec (E : Externals) (ctx : Context) (n : Nat) (a : Noun) :
    (Context.event_update E ctx n a).event_num = n ∧
    (Context.event_update E ctx n a).arvo = a ∧
    (Context.event_update E ctx n a).pma.mem.snapshotVersion =
      PMA_CURRENT_SNAPSHOT_VERSION ∧
    (Context.event_update E ctx n a).pma.mem.snapshotHandle =
      ctx.pma.mem.store.length ∧
    (Context.event_update E ctx n a).pma.mem.store =
      ctx.pma.mem.store ++ [⟨ctx.epoch, n, a, ctx.cold.val⟩] ∧
    (Context.event_update E ctx n a).stackGen = ctx.stackGen + 1 ∧
    (Context.event_update E ctx n a).hot =
      ⟨ctx.hot.val, Loc.frame (ctx.stackGen + 1)⟩ ∧
    (Context.event_update E ctx n a).warm =
      ⟨ctx.warm.val, Loc.frame (ctx.stackGen + 1)⟩ ∧
    (Context.event_update E ctx n a).cold = ⟨ctx.cold.val, Loc.pma⟩ ∧
    (Context.event_update E ctx n a).cache =
      ⟨0, Loc.frame (ctx.stackGen + 1)⟩ ∧
    (Context.event_update E ctx n a).scry_stack = D 0 ∧
    (Context.event_update E ctx n a).mug = E.mug a :=
  ⟨rfl, rfl, rfl, rfl, rfl, rfl, rfl, rfl, rfl, rfl, rfl, rfl⟩

/-- Claim C3: soft returns the interpreter result on success; on a
Deterministic or NonDeterministic failure it returns as the error value a
goof [%exit tang], where tang is the tail of the mook result on the tone
built from the zinged trace; on ScryBlocked or ScryCrashed the process
aborts (modelled as none). -/
theorem soft_error_routing (E : Externals) (ctx : Context) (ovo : Noun) :
    (∀ r, slam E ctx POKE_AXIS ovo = Except.ok r →
      soft E ctx ovo = some (Except.ok r)) ∧
    (∀ t, (slam E ctx POKE_AXIS ovo = Except.error (Error.deterministic t) ∨
           slam E ctx POKE_AXIS ovo = Except.error (Error.nonDeterministic t)) →
      soft E ctx ovo = (goof E t).map Except.error ∧
      ∀ g, goof E t = some g →
        ∃ tr m, E.zing t = some tr ∧
          E.mook (Noun.cell (D 2) tr) = some m ∧
          g = Noun.cell (D tasExit) m.2) ∧
    (∀ p, (slam E ctx POKE_AXIS ovo = Except.error (Error.scryBlocked p) ∨
           slam E ctx POKE_AXIS ovo = Except.error (Error.scryCrashed p)) →
      soft E ctx ovo = none) := by
  refine ⟨?_, ?_, ?_⟩
  · intro r h
    simp only [soft, h]
  · intro t h
    have hgoof : ∀ g, goof E t = some g →
        ∃ tr m, E.zing t = some tr ∧
          E.mook (Noun.cell (D 2) tr) = some m ∧
          g = Noun.cell (D tasExit) m.2 := by
      intro g hg
      unfold goof at hg
      cases hz : E.zing t with
      | none => rw [hz] at hg; simp at hg
      | some tr =>
        rw [hz, Option.some_bind] at hg
        cases hm : E.mook (Noun.cell (D 2) tr) with
        | none => rw [hm] at hg; simp at hg
        | some m =>
          rw [hm, Option.map_some'] at hg
          exact ⟨tr, m, rfl, hm, (Option.some.inj hg).symm⟩
    rcases h with h | h
    · exact ⟨by simp only [soft, h], hgoof⟩
    · exact ⟨by simp only [soft, h], hgoof⟩
  · intro p h
    rcases h with h | h
    · simp only [soft, h]
    · simp only [soft, h]

/-- Witness for soft_error_routing: a blocked scry aborts the soft run. -/
theorem soft_error_routing_witness : soft EScry ctx0 (D 0) = none :=
  (soft_error_routing EScry ctx0 (D 0)).2.2 (D 0) (Or.inl rfl)

/-- Case analysis of work_swap: a completed crud retry either commits the
substitute event (event_num+1, one record appended to the arena) and
replies work_swap, or commits nothing, leaves the snapshot state alone
and replies work_bail with payload [[goof_crud goof] 0]. -/
theorem work_swap_cases (E : Externals) (ctx : Context) (job g : Noun)
    (c' : Context) (rs : List Reply)
    (h : work_swap E ctx job g = some (c', rs)) :
    ((∃ ovo fec, rs = [Reply.work_swap c'.event_num c'.mug ovo fec]) ∧
      c'.event_num = ctx.event_num + 1 ∧
      c'.pma.mem.store =
        ctx.pma.mem.store ++ [⟨ctx.epoch, ctx.event_num + 1, c'.arvo, ctx.cold.val⟩]) ∨
    ((∃ g1, rs = [Reply.work_bail (Noun.cell (Noun.cell g1 g) (D 0))]) ∧
      c'.event_num = ctx.event_num ∧ c'.arvo = ctx.arvo ∧ c'.pma = ctx.pma) := by
  unfold work_swap at h
  cases hcr : crud_ovo job g with
  | none => rw [hcr] at h; exact absurd h (by simp)
  | some ovo =>
    rw [hcr] at h
    dsimp only at h
    cases hs : soft E (work_swap_prep ctx) ovo with
    | none => rw [hs] at h; exact absurd h (by simp)
    | some out =>
      rw [hs] at h
      cases out with
      | ok res =>
        dsimp only at h
        cases hc : res.asCell? with
        | none => rw [hc] at h; exact absurd h (by simp)
        | some p =>
          rw [hc] at h
          obtain ⟨fec, newArvo⟩ := p
          dsimp only at h
          injection Option.some.inj h with h1 h2
          subst h1
          subst h2
          exact Or.inl ⟨⟨ovo, fec, rfl⟩, rfl, rfl⟩
      | error goof_crud =>
        dsimp only at h
        injection Option.some.inj h with h1 h2
        subst h1
        subst h2
        exact Or.inr ⟨⟨goof_crud, rfl⟩, rfl, rfl, rfl⟩

/-- Claim C1 (amended): every completed work request commits exactly one
event (the original job or its crud substitute, with event number
event_num+1, appending exactly one snapshot record to the arena) or
commits zero events, and emits exactly one reply among work_done,
work_swap and work_bail; in the two-failure case the work_bail payload is
[[goof_crud goof] 0] and event_num is unchanged. -/
theorem work_zero_or_one_commit (E : Externals) (ctx : Context) (job : Noun)
    (c' : Context) (rs : List Reply)
    (h : work E ctx job = some (c', rs)) :
    rs.length = 1 ∧
    (((∃ fec, rs = [Reply.work_done c'.event_num c'.mug fec]) ∧
        c'.event_num = ctx.event_num + 1 ∧
        c'.pma.mem.store =
          ctx.pma.mem.store ++ [⟨ctx.epoch, ctx.event_num + 1, c'.arvo, ctx.cold.val⟩]) ∨
     ((∃ ovo fec, rs = [Reply.work_swap c'.event_num c'.mug ovo fec]) ∧
        c'.event_num = ctx.event_num + 1 ∧
        c'.pma.mem.store =
          ctx.pma.mem.store ++ [⟨ctx.epoch, ctx.event_num + 1, c'.arvo, ctx.cold.val⟩]) ∨
     ((∃ g1 g2, rs = [Reply.work_bail (Noun.cell (Noun.cell g1 g2) (D 0))]) ∧
        c'.event_num = ctx.event_num ∧ c'.arvo = ctx.arvo ∧ c'.pma = ctx.pma)) := by
  unfold work at h
  cases hg : (if ctx.trace_info then work_guard job else some ()) with
  | none => rw [hg] at h; exact absurd h (by simp)
  | some u =>
    rw [hg, Option.some_bind] at h
    cases hs : soft E ctx job with
    | none => rw [hs] at h; exact absurd h (by simp)
    | some out =>
      rw [hs] at h
      cases out with
      | ok res =>
        dsimp only at h
        cases hc : res.asCell? with
        | none => rw [hc] at h; exact absurd h (by simp)
        | some p =>
          rw [hc] at h
          obtain ⟨fec, newArvo⟩ := p
          dsimp only at h
          injection Option.some.inj h with h1 h2
          subst h1
          subst h2
          exact ⟨rfl, Or.inl ⟨⟨fec, rfl⟩, rfl, rfl⟩⟩
      | error g =>
        dsimp only at h
        rcases work_swap_cases E ctx job g c' rs h with
          ⟨hr, he, hst⟩ | ⟨⟨g1, hr⟩, he, ha, hp⟩
        · obtain ⟨ovo, fec, hr⟩ := hr
          subst hr
          exact ⟨rfl, Or.inr (Or.inl ⟨⟨ovo, fec, rfl⟩, he, hst⟩)⟩
        · subst hr
          exact ⟨rfl, Or.inr (Or.inr ⟨⟨g1, g, rfl⟩, he, ha, hp⟩)⟩

/-- Witness for work_zero_or_one_commit: the double-failure run under E0
completes with exactly one reply. -/
theorem work_zero_or_one_commit_witness :
    [Reply.work_bail (Noun.cell (Noun.cell g0 g0) (D 0))].length = 1 :=
  (work_zero_or_one_commit E0 ctx0 (Noun.cell (D 0) (D 0)) ctx0
    [Reply.work_bail (Noun.cell (Noun.cell g0 g0) (D 0))] rfl).1

/-- Claim C1 counterexample: with an interpreter that fails
deterministically on both the original job and the crud retry, the
work_bail payload is [[goof_crud goof] 0] — the pair of the two goofs
consed onto 0 — which is a different noun from the list
[goof_crud goof 0] stated by the claim. -/
theorem work_bail_payload_counterexample :
    (work E0 ctx0 (Noun.cell (D 0) (D 0))).map (fun p => p.2) =
      some [Reply.work_bail (Noun.cell (Noun.cell g0 g0) (D 0))] ∧
    Noun.cell (Noun.cell g0 g0) (D 0) ≠ Noun.cell g0 (Noun.cell g0 (D 0)) :=
  ⟨rfl, by decide⟩

/-- Claim C5: a play request runs the lifecycle boot if and only if epoch
and event_num are both zero; the lifecycle evaluates the formula
[2 [0 3] 0 2] against the whole event list, takes axis 7 of the result as
the initial arvo, and commits an event number equal to the length of the
event list. -/
theorem play_lifecycle (E : Externals) (ctx : Context) (x lit : Noun) :
    (dispatch E ctx (Noun.cell (D tasPlay) (Noun.cell x lit)) =
      if ctx.epoch = 0 ∧ ctx.event_num = 0 then play_life E ctx lit
      else play_list E ctx lit) ∧
    lifeFormula =
      Noun.cell (D 2)
        (Noun.cell (Noun.cell (D 0) (D 3)) (Noun.cell (D 0) (D 2))) ∧
    (∀ gat n a, E.interpret lit lifeFormula = Except.ok gat →
      lent lit = some n → slot gat 7 = some a →
      play_life E ctx lit =
        some (Context.event_update E ctx n a,
          [Reply.play_done (Context.event_update E ctx n a).mug]) ∧
      (Context.event_update E ctx n a).event_num = n ∧
      (Context.event_update E ctx n a).arvo = a) := by
  refine ⟨rfl, rfl, ?_⟩
  intro gat n a h1 h2 h3
  refine ⟨?_, rfl, rfl⟩
  unfold play_life
  rw [h1]
  dsimp only
  rw [h2, h3]

/-- Witness for play_lifecycle: booting a one-event list under EBoot
commits event number 1 and arvo 42. -/
theorem play_lifecycle_witness :
    play_life EBoot ctx0 (Noun.cell (D 5) (D 0)) =
      some (Context.event_update EBoot ctx0 1 (D 42),
        [Reply.play_done (Context.event_update EBoot ctx0 1 (D 42)).mug]) ∧
    (Context.event_update EBoot ctx0 1 (D 42)).event_num = 1 :=
  let h := (play_lifecycle EBoot ctx0 (D 0) (Noun.cell (D 5) (D 0))).2.2
    (Noun.cell (D 0) (Noun.cell (D 0) (D 42))) 1 (D 42) rfl rfl rfl
  ⟨h.1, h.2.1⟩

/-- Claim C7: load reads the SnapshotVersion metadata slot; version 0
yields a fresh Context (epoch 0, event 0, arvo the integer 0, fresh cold
table); version 1 reconstructs the Context from the record behind the
Snapshot metadata handle; any other version is fatal (none). -/
theorem load_version_dispatch (E : Externals) (tr : Bool) (st : PMAState) :
    (st.snapshotVersion = 0 →
      Context.load E tr st = some (Context.new E tr ⟨st, st⟩ none) ∧
      (Context.new E tr ⟨st, st⟩ none).epoch = 0 ∧
      (Context.new E tr ⟨st, st⟩ none).event_num = 0 ∧
      (Context.new E tr ⟨st, st⟩ none).arvo = D 0 ∧
      (Context.new E tr ⟨st, st⟩ none).cold.val = 0) ∧
    (st.snapshotVersion = 1 → ∀ s, st.store[st.snapshotHandle]? = some s →
      Context.load E tr st = some (Context.new E tr ⟨st, st⟩ (some s)) ∧
      (Context.new E tr ⟨st, st⟩ (some s)).epoch = s.epoch ∧
      (Context.new E tr ⟨st, st⟩ (some s)).event_num = s.event_num ∧
      (Context.new E tr ⟨st, st⟩ (some s)).arvo = s.arvo ∧
      (Context.new E tr ⟨st, st⟩ (some s)).cold.val = s.cold) ∧
    (st.snapshotVersion ≠ 0 → st.snapshotVersion ≠ 1 →
      Context.load E tr st = none) := by
  refine ⟨?_, ?_, ?_⟩
  · intro h0
    refine ⟨?_, rfl, rfl, rfl, rfl⟩
    unfold Context.load
    rw [h0]
  · intro h1 s hs
    refine ⟨?_, rfl, rfl, rfl, rfl⟩
    unfold Context.load
    rw [h1]
    dsimp only
    rw [hs, Option.map_some']
  · intro h0 h1
    unfold Context.load
    match hv : st.snapshotVersion with
    | 0 => exact absurd hv h0
    | 1 => exact absurd hv h1
    | v + 2 => rfl

/-- Witness for load_version_dispatch: version 0 loads fresh, version 1
reconstructs, version 2 is fatal. -/
theorem load_version_dispatch_witness :
    Context.load E0 false ⟨0, 0, []⟩ =
      some (Context.new E0 false ⟨⟨0, 0, []⟩, ⟨0, 0, []⟩⟩ none) ∧
    Context.load E0 false ⟨1, 0, [⟨3, 7, D 9, 5⟩]⟩ =
      some (Context.new E0 false
        ⟨⟨1, 0, [⟨3, 7, D 9, 5⟩]⟩, ⟨1, 0, [⟨3, 7, D 9, 5⟩]⟩⟩
        (some ⟨3, 7, D 9, 5⟩)) ∧
    Context.load E0 false ⟨2, 0, []⟩ = none :=
  ⟨((load_version_dispatch E0 false ⟨0, 0, []⟩).1 rfl).1,
   ((load_version_dispatch E0 false ⟨1, 0, [⟨3, 7, D 9, 5⟩]⟩).2.1 rfl
      ⟨3, 7, D 9, 5⟩ rfl).1,
   (load_version_dispatch E0 false ⟨2, 0, []⟩).2.2 (by decide) (by decide)⟩

/-- Claim C8: save copies the snapshot record (epoch, event_num, arvo,
cold) into the persistent arena and rewrites the SnapshotVersion and
Snapshot metadata slots without forcing durability (the disk shadow is
untouched); durability is forced only by sync; the live branch of the
dispatcher invokes sync exactly for the %save sub-tag and always replies
live. -/
theorem save_sync_live (E : Externals) (ctx : Context) (sub : Nat)
    (rest : Noun) (hdirect : sub < 2 ^ 63) :
    (ctx.save.pma.mem.snapshotVersion = PMA_CURRENT_SNAPSHOT_VERSION ∧
     ctx.save.pma.mem.snapshotHandle = ctx.pma.mem.store.length ∧
     ctx.save.pma.mem.store =
       ctx.pma.mem.store ++ [⟨ctx.epoch, ctx.event_num, ctx.arvo, ctx.cold.val⟩] ∧
     ctx.save.pma.disk = ctx.pma.disk) ∧
    (ctx.sync.pma.disk = ctx.pma.mem ∧ ctx.sync.pma.mem = ctx.pma.mem) ∧
    dispatch E ctx (Noun.cell (D tasLive) (Noun.cell (D sub) rest)) =
      some ((if sub = tasSave then ctx.sync else ctx), [Reply.live]) := by
  refine ⟨⟨rfl, rfl, rfl, rfl⟩, ⟨rfl, rfl⟩, ?_⟩
  simp [dispatch, slot, slotFuel, Noun.asDirect?, D, tasLive, hdirect]
  exact hdirect

/-- Witness for save_sync_live: a %save live request syncs and replies
live. -/
theorem save_sync_live_witness :
    dispatch E0 ctx0 (Noun.cell (D tasLive) (Noun.cell (D tasSave) (D 0))) =
      some (ctx0.sync, [Reply.live]) := by
  have h := (save_sync_live E0 ctx0 tasSave (D 0) (by decide)).2.2
  rw [if_pos rfl] at h
  exact h

/-- A concrete live request with the unknown sub-tag 0. -/
def wlive0 : Noun := Noun.cell (D tasLive) (Noun.cell (D 0) (D 0))

/-- Claim C9 counterexample: the main loop clears TERMINATOR only after
dispatch; if a signal arrives while the serf is blocked waiting for the
next request, the flag is still set at the moment the processing of that
event begins, so the flag is not cleared before the processing of every
event. -/
theorem terminator_before_counterexample :
    ctx0.terminator = false ∧
    (serf_pre_dispatch ctx0 true).terminator = true :=
  ⟨rfl, rfl⟩

/-- Claim C9 (amended): TERMINATOR is cleared after the processing of
every event; it is clear when processing begins only in the conditional
sense that it was clear after the previous event and no signal arrived
while waiting for the next request. -/
theorem terminator_cleared_after (E : Externals) (ctx : Context)
    (writ : Noun) (sw sl : Bool) (c' : Context) (rs : List Reply)
    (h : serf_step E ctx writ sw sl = some (c', rs)) :
    c'.terminator = false ∧
    (ctx.terminator = false → sw = false →
      (serf_pre_dispatch ctx sw).terminator = false) := by
  constructor
  · unfold serf_step at h
    cases hd : dispatch E (serf_pre_dispatch ctx sw) writ with
    | none => rw [hd] at h; exact absurd h (by simp)
    | some p =>
      rw [hd, Option.map_some'] at h
      dsimp only at h
      injection Option.some.inj h with h1 h2
      subst h1
      rfl
  · intro h1 h2
    rw [serf_pre_dispatch, h2]
    simp [h1]

/-- Witness for terminator_cleared_after: a completed live event leaves
the flag clear even when signals arrived while waiting and during the
event. -/
theorem terminator_cleared_after_witness :
    (serf_step E0 ctx0 wlive0 true true).map (fun p => p.1.terminator) =
      some false := by
  obtain ⟨p, hp⟩ : ∃ p, serf_step E0 ctx0 wlive0 true true = some p := ⟨_, rfl⟩
  rw [hp, Option.map_some']
  exact congrArg some
    (terminator_cleared_after E0 ctx0 wlive0 true true p.1 p.2 (by rw [hp])).1

/-- Claim C10: a live request whose direct-atom sub-tag is none of cram,
exit, save, meld, pack is not fatal: the dispatcher prints a diagnostic
(an I/O effect outside this model) and still replies live, leaving the
Context — in particular epoch, event_num, arvo and mug — unchanged. -/
theorem live_unknown_subtag (E : Externals) (ctx : Context) (sub : Nat)
    (rest : Noun) (hdirect : sub < 2 ^ 63)
    (_hcram : sub ≠ tasCram) (_hexit : sub ≠ tasExit) (hsave : sub ≠ tasSave)
    (_hmeld : sub ≠ tasMeld) (_hpack : sub ≠ tasPack) :
    dispatch E ctx (Noun.cell (D tasLive) (Noun.cell (D sub) rest)) =
      some (ctx, [Reply.live]) := by
  simp [dispatch, slot, slotFuel, Noun.asDirect?, D, tasLive, hsave]
  exact hdirect

/-- Witness for live_unknown_subtag: the sub-tag 0x62 is direct and
unknown, and the reply is live with the Context untouched. -/
theorem live_unknown_subtag_witness :
    dispatch E0 ctx0 (Noun.cell (D tasLive) (Noun.cell (D 0x62) (D 0))) =
      some (ctx0, [Reply.live]) :=
  live_unknown_subtag E0 ctx0 0x62 (D 0) (by decide) (by decide) (by decide)
    (by decide) (by decide) (by decide)

end Serf
